import Mathlib

/-!
Verification of the `spigo.go` top-level controller (`main`).

The Go program is a straight-line `main` function: it registers command-line
flags (whose registration writes default values into the global configuration
`archaius.Conf`), calls `runtime.GOMAXPROCS`, parses the flags, performs a
sequence of configuration writes and possible fatal exits, starts the `edda`
recorder goroutine, runs one of four architecture start paths, and finally
performs the shutdown sequence (log completion, close the logging channel if
present, wait on edda, flow shutdown).

We embed this as a pure function from the parsed command line, the process
environment and a set of external oracles (the effect of `archaius.ReadConf`,
the success of `os.Create` for the cpu profile, the result of
`architecture.ReadArch`, and `runtime.NumCPU`) to a trace of events together
with the final configuration, the logging-channel state and the process
outcome (normal completion or a `log.Fatal` exit).
-/

namespace Spigo

/-- Fields of `archaius.Conf` (the global configuration struct), restricted to
those `main` reads or writes. Field names follow the Go source. -/
structure Conf where
  Arch : String
  Population : Int
  Regions : Int
  Msglog : Bool
  Collect : Bool
  Measure : Bool
  StopStep : Int
  EurekaPoll : String
  Keyvals : String
  Filter : Bool
  GraphjsonFile : String
  GraphmlFile : String
  Neo4jURL : String
  RunDuration : Int
  Kafka : List String
deriving DecidableEq, Repr

/-- The command line: for each registered flag, `some v` when the flag was
supplied with value `v`, `none` when absent (so the flag default applies).
Field names are the flag names from `main` (`-h` is `hFlag` since `h` is the
measure flag). -/
structure CmdLine where
  a : Option String := none
  p : Option Int := none
  d : Option Int := none
  w : Option Int := none
  g : Option Bool := none
  j : Option Bool := none
  n : Option Bool := none
  m : Option Bool := none
  r : Option Bool := none
  c : Option Bool := none
  hFlag : Option Bool := none
  k : Option String := none
  s : Option Int := none
  u : Option String := none
  kv : Option String := none
  f : Option Bool := none
  cpus : Option Int := none
  cpuprofile : Option String := none
  config : Option String := none
  saveconfig : Option Bool := none
deriving DecidableEq, Repr

/-- The process environment variables read by `main`. -/
structure Env where
  neo4jpassword : String
  neo4jurl : String
deriving DecidableEq, Repr

/-- External collaborators of `main` that live outside `spigo.go`:
`archaius.ReadConf` (modelled as an arbitrary transformation of the global
configuration), the success of `os.Create` for the cpu profile file,
`architecture.ReadArch` (modelled by whether it returns a non-nil
architecture for a given name), and `runtime.NumCPU()`. -/
structure Ext where
  readConf : Conf → Conf
  cpuprofileCreateOk : Bool
  readArch : String → Bool
  numCPU : Int

/-- The messages of the `log.Fatal` exits that `main` can take. The
`archNotRecognized` constructor carries the offending architecture name,
mirroring the message `Architecture <arch> is not recognized` built from
`archaius.Conf.Arch`. -/
inductive FatalMsg where
  | cpuprofileCreate
  | neo4jFilter
  | neo4jPassword
  | archNotRecognized (arch : String)
deriving DecidableEq, Repr

/-- Observable events of one run of `main`, in program order. Configuration
writes are tagged with the written field group. -/
inductive ConfField where
  | flagDefaults
  | kafka
  | readConf
  | graphjsonFile
  | graphmlFile
  | neo4jURL
  | runDuration
deriving DecidableEq, Repr

/-- One step of `main`'s observable behaviour. -/
inductive Event where
  | gomaxprocs (v : Int)
  | flagParse
  | confWrite (f : ConfField)
  | fatal (msg : FatalMsg)
  | startCPUProfile
  | collectServe (port : Nat)
  | makeLogchan (cap : Nat)
  | writeConf
  | spawnHTTP
  | spawnEdda (name : String)
  | asgardRun (arch : String)
  | fsmStart
  | migrationStart
  | readArchCall (arch : String)
  | architectureStart
  | logComplete
  | closeLogchan
  | eddaWgWait
  | flowShutdown
deriving DecidableEq, Repr

/-- How the process ended. -/
inductive Outcome where
  | fatalExit (msg : FatalMsg)
  | completed
deriving DecidableEq, Repr

/-- Result of a run of `main`: the event trace, the outcome, the final value
of `archaius.Conf`, and the state of `edda.Logchan` (its capacity when it was
created, `none` when it stayed nil). -/
structure RunResult where
  trace : List Event
  outcome : Outcome
  conf : Conf
  logchan : Option Nat
deriving Repr

/-- Splitting accumulator for `strings.Split(s, ",")`: `acc` holds the
characters of the current field in reverse. -/
def commaAux : List Char → List Char → List String
  | [], acc => [String.mk acc.reverse]
  | ch :: cs, acc =>
    if ch = ',' then String.mk acc.reverse :: commaAux cs []
    else commaAux cs (ch :: acc)

/-- Go's `strings.Split(s, ",")`: in particular `splitComma "" = [""]`. -/
def splitComma (s : String) : List String := commaAux s.data []

/-- The Kafka address list built by the loop at lines 57-62: split the `-k`
string on commas and keep only the entries with `len(addr) > 0`. -/
def kafkaList (addrs : String) : List String :=
  (splitComma addrs).filter (fun a => 0 < a.length)

/-- `archaius.Conf` just after `flag.Parse()` (lines 34-55): each flag-bound
field holds the command-line value when supplied, its registration default
otherwise; the fields not bound to flags still hold their zero values. -/
def confAfterParse (cmd : CmdLine) : Conf :=
  { Arch := cmd.a.getD "netflixoss"
    Population := cmd.p.getD 100
    Regions := cmd.w.getD 1
    Msglog := cmd.m.getD false
    Collect := cmd.c.getD false
    Measure := cmd.hFlag.getD false
    StopStep := cmd.s.getD 0
    EurekaPoll := cmd.u.getD "1s"
    Keyvals := cmd.kv.getD ""
    Filter := cmd.f.getD false
    GraphjsonFile := ""
    GraphmlFile := ""
    Neo4jURL := ""
    RunDuration := 0
    Kafka := [] }

/-- `archaius.Conf` after the Kafka loop (lines 57-62) appended the non-empty
addresses to the (initially empty) `Kafka` slice. -/
def confAfterKafka (cmd : CmdLine) : Conf :=
  { confAfterParse cmd with
    Kafka := (confAfterParse cmd).Kafka ++ kafkaList (cmd.k.getD "") }

/-- `archaius.Conf` after the optional `archaius.ReadConf` call (lines 64-66):
when `-config` is non-empty the configuration file overrides the struct. -/
def confBeforeExport (cmd : CmdLine) (ext : Ext) : Conf :=
  if cmd.config.getD "" = "" then confAfterKafka cmd
  else ext.readConf (confAfterKafka cmd)

/-- Outcome of the setup phase of `main` (everything before line 115's
`go edda.Start`): either a `log.Fatal` exit, or the trace so far together
with the configuration, the `edda.Logchan` state and the `reload` flag. -/
inductive SetupOut where
  | fatalStop (trace : List Event) (conf : Conf) (msg : FatalMsg)
  | ok (trace : List Event) (conf : Conf) (logchan : Option Nat) (reloadFlag : Bool)

/-- Two's-complement wraparound of an integer into the `int64` range
`[-2^63, 2^63)`, as performed by Go's 64-bit integer arithmetic. -/
def int64Wrap (n : Int) : Int :=
  (n + 9223372036854775808) % 18446744073709551616 - 9223372036854775808

/-- Lines 104-112: set `RunDuration` from the `-d` flag, optionally write the
config file, and spawn the pprof HTTP server goroutine. The Go expression
`time.Duration(duration) * time.Second` is an `int64` product, so it wraps
for `|duration|` at or above 9223372037. -/
def finishSetup (cmd : CmdLine) (t : List Event) (conf : Conf)
    (lc : Option Nat) : SetupOut :=
  let duration := cmd.d.getD 10
  let conf2 := { conf with RunDuration := int64Wrap (duration * 1000000000) }
  let t2 := t ++ [Event.confWrite .runDuration]
    ++ (if cmd.saveconfig.getD false then [Event.writeConf] else [])
    ++ [Event.spawnHTTP]
  SetupOut.ok t2 conf2 lc (cmd.r.getD false)

/-- Lines 78-112 of `main`: the graph export block with its Neo4j fatal
exits and the creation of the `edda.Logchan` buffered channel, followed by
the tail of the setup (`finishSetup`). `conf1` is the configuration at line
78 and `t4` the trace so far. -/
def exportBlock (cmd : CmdLine) (env : Env) (conf1 : Conf) (t4 : List Event) :
    SetupOut :=
  let gj := cmd.j.getD false
  let gml := cmd.g.getD false
  let n4 := cmd.n.getD false
  if gj || gml || n4 then
    let conf5 := if gj then { conf1 with GraphjsonFile := conf1.Arch } else conf1
    let t5 := t4 ++ (if gj then [Event.confWrite .graphjsonFile] else [])
    let conf6 := if gml then { conf5 with GraphmlFile := conf5.Arch } else conf5
    let t6 := t5 ++ (if gml then [Event.confWrite .graphmlFile] else [])
    if n4 then
      if conf6.Filter then
        SetupOut.fatalStop (t6 ++ [Event.fatal .neo4jFilter]) conf6 .neo4jFilter
      else if env.neo4jpassword = "" then
        SetupOut.fatalStop (t6 ++ [Event.fatal .neo4jPassword]) conf6 .neo4jPassword
      else
        let conf7 := { conf6 with
          Neo4jURL := if env.neo4jurl = "" then "localhost:7474" else env.neo4jurl }
        finishSetup cmd
          (t6 ++ [Event.confWrite .neo4jURL, Event.makeLogchan 1000]) conf7 (some 1000)
    else
      finishSetup cmd (t6 ++ [Event.makeLogchan 1000]) conf6 (some 1000)
  else
    finishSetup cmd t4 conf1 none

/-- The trace of lines 34-66 of `main`: flag registration (writing the
defaults into the configuration), `runtime.GOMAXPROCS(cpucount)` before
`flag.Parse()` (so `cpucount` still holds `runtime.NumCPU()`), the Kafka
append loop (one configuration write per kept address), and the optional
`archaius.ReadConf` call. -/
def setupTrace2 (cmd : CmdLine) (ext : Ext) : List Event :=
  [Event.confWrite .flagDefaults, Event.gomaxprocs ext.numCPU, Event.flagParse]
    ++ (kafkaList (cmd.k.getD "")).map (fun _ => Event.confWrite .kafka)
    ++ (if cmd.config.getD "" = "" then [] else [Event.confWrite .readConf])

/-- The trace of lines 34-77 of `main`: `setupTrace2` followed by the start
of cpu profiling (when requested and `os.Create` succeeded) and the
`collect.Serve` call (when collection is enabled). -/
def setupTrace4 (cmd : CmdLine) (ext : Ext) : List Event :=
  setupTrace2 cmd ext
    ++ (if cmd.cpuprofile.getD "" = "" then [] else [Event.startCPUProfile])
    ++ (if (confBeforeExport cmd ext).Collect then [Event.collectServe 8123] else [])

/-- Lines 34-112 of `main`: either the cpu-profile `log.Fatal` at line 70
fires, or execution reaches the export block with the configuration of line
78 and the trace of lines 34-77. -/
def setup (cmd : CmdLine) (env : Env) (ext : Ext) : SetupOut :=
  if cmd.cpuprofile.getD "" ≠ "" ∧ ext.cpuprofileCreateOk = false then
    SetupOut.fatalStop (setupTrace2 cmd ext ++ [Event.fatal .cpuprofileCreate])
      (confBeforeExport cmd ext) .cpuprofileCreate
  else
    exportBlock cmd env (confBeforeExport cmd ext) (setupTrace4 cmd ext)

/-- Outcome of the architecture branch (lines 116-132). -/
inductive ArchOut where
  | fatalStop (trace : List Event) (msg : FatalMsg)
  | ok (trace : List Event)

/-- Lines 116-132 of `main`: reload via asgard, or the switch on
`archaius.Conf.Arch` with `fsm`, `migration`, and the default path through
`architecture.ReadArch` that exits fatally on a nil result. -/
def runArch (conf : Conf) (rl : Bool) (ext : Ext) : ArchOut :=
  if rl then ArchOut.ok [Event.asgardRun conf.Arch]
  else if conf.Arch = "fsm" then ArchOut.ok [Event.fsmStart]
  else if conf.Arch = "migration" then ArchOut.ok [Event.migrationStart]
  else if ext.readArch conf.Arch then
    ArchOut.ok [Event.readArchCall conf.Arch, Event.architectureStart]
  else
    ArchOut.fatalStop
      [Event.readArchCall conf.Arch, Event.fatal (.archNotRecognized conf.Arch)]
      (.archNotRecognized conf.Arch)

/-- Lines 133-139 of `main`: log `spigo: complete`, close `edda.Logchan` when
it is non-nil, wait for edda's wait group, and call `flow.Shutdown()`. -/
def shutdownTrace (lc : Option Nat) : List Event :=
  Event.logComplete ::
    ((if lc.isSome then [Event.closeLogchan] else [])
      ++ [Event.eddaWgWait, Event.flowShutdown])

/-- The whole of `main`: setup, then `go edda.Start(Conf.Arch + ".edda")`,
then the architecture branch, then the shutdown sequence. A `log.Fatal`
anywhere ends the trace at that point. -/
def main (cmd : CmdLine) (env : Env) (ext : Ext) : RunResult :=
  match setup cmd env ext with
  | SetupOut.fatalStop t c msg => ⟨t, Outcome.fatalExit msg, c, none⟩
  | SetupOut.ok t c lc rl =>
    let t1 := t ++ [Event.spawnEdda (c.Arch ++ ".edda")]
    match runArch c rl ext with
    | ArchOut.fatalStop t2 msg => ⟨t1 ++ t2, Outcome.fatalExit msg, c, lc⟩
    | ArchOut.ok t2 => ⟨t1 ++ t2 ++ shutdownTrace lc, Outcome.completed, c, lc⟩

/-- Whether the setup phase completes without a `log.Fatal`. -/
def setupOk (cmd : CmdLine) (env : Env) (ext : Ext) : Bool :=
  match setup cmd env ext with
  | SetupOut.ok _ _ _ _ => true
  | SetupOut.fatalStop _ _ _ => false

/-- The trace a `SetupOut` carries. -/
def SetupOut.traceOf : SetupOut → List Event
  | .fatalStop t _ _ => t
  | .ok t _ _ _ => t

/-- Events that start the recorder or an architecture. -/
def isStart : Event → Bool
  | .spawnEdda _ => true
  | .asgardRun _ => true
  | .fsmStart => true
  | .migrationStart => true
  | .architectureStart => true
  | _ => false

/-- Events that run an architecture (`asgard.Run`, `fsm.Start`,
`migration.Start`, `architecture.Start`). -/
def isArchRun : Event → Bool
  | .asgardRun _ => true
  | .fsmStart => true
  | .migrationStart => true
  | .architectureStart => true
  | _ => false

/-- Events that write `archaius.Conf` (tagged writes, and `flag.Parse` which
stores the command-line values into the flag-bound fields). -/
def isConfWrite : Event → Bool
  | .confWrite _ => true
  | .flagParse => true
  | _ => false

/-- The `go edda.Start` launch event. -/
def isSpawnEdda : Event → Bool
  | .spawnEdda _ => true
  | _ => false

/-- The event kinds the setup phase can emit; a `gomaxprocs` event must carry
`runtime.NumCPU()`. -/
def isSetupEvent (ext : Ext) : Event → Bool
  | .gomaxprocs v => v == ext.numCPU
  | .flagParse => true
  | .confWrite _ => true
  | .fatal _ => true
  | .startCPUProfile => true
  | .collectServe _ => true
  | .makeLogchan _ => true
  | .writeConf => true
  | .spawnHTTP => true
  | _ => false

/-- A `q`-event never occurs in `l` before a `p`-event has occurred. -/
def noEarlier (p q : Event → Bool) (l : List Event) : Prop :=
  ∀ l1 e l2, l = l1 ++ e :: l2 → q e = true → ∃ x ∈ l1, p x = true

theorem noEarlier_of_no_q {p q : Event → Bool} {l : List Event}
    (h : ∀ e ∈ l, q e = false) : noEarlier p q l := by
  intro l1 e l2 hl hq
  exfalso
  have he : e ∈ l := by
    rw [hl]; exact List.mem_append_right _ (List.mem_cons_self _ _)
  have := h e he
  rw [this] at hq
  exact Bool.noConfusion hq

theorem noEarlier_append_left {p q : Event → Bool} {A B : List Event}
    (hA : ∀ e ∈ A, q e = false) (hw : ∃ x ∈ A, p x = true) :
    noEarlier p q (A ++ B) := by
  intro l1 e l2 hl hq
  rcases List.append_eq_append_iff.mp hl.symm with ⟨a2, h1, h2⟩ | ⟨c2, h1, _⟩
  · cases a2 with
    | nil =>
      obtain ⟨x, hxA, hpx⟩ := hw
      simp only [List.append_nil] at h1
      rw [h1] at hxA
      exact ⟨x, hxA, hpx⟩
    | cons y a3 =>
      exfalso
      have hey : e = y := by
        have h3 := h2
        simp only [List.cons_append] at h3
        exact (List.cons_eq_cons.mp h3).1
      have heA : e ∈ A := by
        rw [h1, hey]
        exact List.mem_append_right _ (List.mem_cons_self _ _)
      have := hA e heA
      rw [this] at hq
      exact Bool.noConfusion hq
  · obtain ⟨x, hxA, hpx⟩ := hw
    refine ⟨x, ?_, hpx⟩
    rw [h1]
    exact List.mem_append_left _ hxA

theorem dropWhile_append_all {p : Event → Bool} {A B : List Event}
    (h : ∀ e ∈ A, p e = true) : (A ++ B).dropWhile p = B.dropWhile p := by
  induction A with
  | nil => simp
  | cons a A ih =>
    have ha := h a (List.mem_cons_self a A)
    simp only [List.cons_append, List.dropWhile_cons, ha, if_true]
    exact ih (fun e he => h e (List.mem_cons_of_mem a he))

theorem dropWhile_eq_nil_all {p : Event → Bool} {A : List Event}
    (h : ∀ e ∈ A, p e = true) : A.dropWhile p = [] := by
  have := @dropWhile_append_all p A [] h
  simpa using this

/-- The `int64` wraparound is the identity on values already in the
`int64` range. -/
theorem int64Wrap_eq_self {n : Int}
    (h1 : -9223372036854775808 ≤ n) (h2 : n < 9223372036854775808) :
    int64Wrap n = n := by
  unfold int64Wrap
  omega

/-- Classification of the event kinds the setup phase can emit: none of them
starts the recorder, runs an architecture, or belongs to the shutdown
sequence. -/
theorem setupEvent_class {ext : Ext} {e : Event} (h : isSetupEvent ext e = true) :
    isStart e = false ∧ isArchRun e = false ∧ isSpawnEdda e = false
    ∧ (e == Event.logComplete) = false ∧ (e == Event.closeLogchan) = false
    ∧ e ≠ Event.architectureStart ∧ e ≠ Event.fsmStart ∧ e ≠ Event.migrationStart
    ∧ (∀ nm, e ≠ Event.asgardRun nm) ∧ (∀ nm, e ≠ Event.readArchCall nm)
    ∧ (∀ nm, e ≠ Event.spawnEdda nm) := by
  cases e <;> simp_all [isSetupEvent, isStart, isArchRun, isSpawnEdda]

theorem mem_ite_nil_then {c : Prop} [Decidable c] {x e : Event}
    (h : e ∈ if c then ([] : List Event) else [x]) : e = x := by
  split at h <;> simp_all

theorem mem_ite_nil_else {c : Prop} [Decidable c] {x e : Event}
    (h : e ∈ if c then [x] else ([] : List Event)) : e = x := by
  split at h <;> simp_all

/-- Every event the export block appends to `t4` is a setup event. -/
theorem exportBlock_events_all {cmd : CmdLine} {env : Env} {ext : Ext}
    {conf1 : Conf} {t4 : List Event}
    (h4 : t4.all (isSetupEvent ext) = true) :
    ((exportBlock cmd env conf1 t4).traceOf).all (isSetupEvent ext) = true := by
  simp only [exportBlock, finishSetup]
  repeat' split
  all_goals simp [SetupOut.traceOf, List.all_append, h4, isSetupEvent]

/-- Membership form of `exportBlock_events_all`. -/
theorem exportBlock_events {cmd : CmdLine} {env : Env} {ext : Ext}
    {conf1 : Conf} {t4 : List Event}
    (h4 : ∀ e ∈ t4, isSetupEvent ext e = true) :
    ∀ e ∈ (exportBlock cmd env conf1 t4).traceOf, isSetupEvent ext e = true :=
  List.all_eq_true.mp (exportBlock_events_all (List.all_eq_true.mpr h4))

/-- The export block only ever appends events after `t4`. -/
theorem exportBlock_trace_prefix (cmd : CmdLine) (env : Env)
    (conf1 : Conf) (t4 : List Event) :
    ∃ rest, (exportBlock cmd env conf1 t4).traceOf = t4 ++ rest := by
  simp only [exportBlock, finishSetup]
  repeat' split
  all_goals
    simp only [SetupOut.traceOf, List.append_assoc]
    exact ⟨_, rfl⟩

/-- What a successful export block guarantees about its components. -/
theorem exportBlock_ok_facts {cmd : CmdLine} {env : Env}
    {conf1 : Conf} {t4 : List Event}
    {t : List Event} {c : Conf} {lc : Option Nat} {rl : Bool}
    (h : exportBlock cmd env conf1 t4 = SetupOut.ok t c lc rl) :
    c.RunDuration = int64Wrap ((cmd.d.getD 10) * 1000000000)
    ∧ rl = cmd.r.getD false
    ∧ lc = (if cmd.j.getD false || cmd.g.getD false || cmd.n.getD false
        then some 1000 else none)
    ∧ c.Arch = conf1.Arch
    ∧ c.EurekaPoll = conf1.EurekaPoll
    ∧ (cmd.n.getD false = true →
        c.Neo4jURL = (if env.neo4jurl = "" then "localhost:7474" else env.neo4jurl)) := by
  simp only [exportBlock, finishSetup] at h
  repeat' split at h
  all_goals cases h
  all_goals simp_all

/-- When Neo4j export is on and the filter option is set, the export block
exits fatally with the filter diagnostic. -/
theorem exportBlock_filter_fatal {cmd : CmdLine} {env : Env}
    {conf1 : Conf} {t4 : List Event}
    (hn : cmd.n.getD false = true) (hf : conf1.Filter = true) :
    ∃ t c, exportBlock cmd env conf1 t4 = SetupOut.fatalStop t c FatalMsg.neo4jFilter := by
  simp only [exportBlock, finishSetup]
  repeat' split
  all_goals first
    | exact ⟨_, _, rfl⟩
    | simp_all

/-- When Neo4j export is on, the filter option is off and the password is
unset, the export block exits fatally with the password diagnostic. -/
theorem exportBlock_password_fatal {cmd : CmdLine} {env : Env}
    {conf1 : Conf} {t4 : List Event}
    (hn : cmd.n.getD false = true) (hf : conf1.Filter = false)
    (hpw : env.neo4jpassword = "") :
    ∃ t c, exportBlock cmd env conf1 t4 = SetupOut.fatalStop t c FatalMsg.neo4jPassword := by
  simp only [exportBlock, finishSetup]
  repeat' split
  all_goals first
    | exact ⟨_, _, rfl⟩
    | simp_all

/-- When the Neo4j checks cannot fire, the export block completes. -/
theorem exportBlock_ok {cmd : CmdLine} {env : Env}
    {conf1 : Conf} {t4 : List Event}
    (h : cmd.n.getD false = true → conf1.Filter = false ∧ env.neo4jpassword ≠ "") :
    ∃ t c lc rl, exportBlock cmd env conf1 t4 = SetupOut.ok t c lc rl := by
  simp only [exportBlock, finishSetup]
  repeat' split
  all_goals first
    | exact ⟨_, _, _, _, rfl⟩
    | simp_all

/-- The trace of lines 34-66 consists of setup events only. -/
theorem setupTrace2_events_all (cmd : CmdLine) (ext : Ext) :
    (setupTrace2 cmd ext).all (isSetupEvent ext) = true := by
  simp [setupTrace2, List.all_append, List.all_map, isSetupEvent,
    List.all_eq_true]

/-- The trace of lines 34-77 consists of setup events only. -/
theorem setupTrace4_events_all (cmd : CmdLine) (ext : Ext) :
    (setupTrace4 cmd ext).all (isSetupEvent ext) = true := by
  have h2 := setupTrace2_events_all cmd ext
  simp [setupTrace4, List.all_append, isSetupEvent]
  simp [List.all_append] at h2
  exact h2

/-- The trace of lines 34-66 starts with the flag-default writes, the
`GOMAXPROCS` call, and `flag.Parse`. -/
theorem setupTrace2_cons (cmd : CmdLine) (ext : Ext) :
    setupTrace2 cmd ext
      = Event.confWrite ConfField.flagDefaults :: Event.gomaxprocs ext.numCPU
        :: Event.flagParse
        :: ((kafkaList (cmd.k.getD "")).map (fun _ => Event.confWrite .kafka)
          ++ (if cmd.config.getD "" = "" then [] else [Event.confWrite .readConf])) := by
  simp [setupTrace2]

/-- Setup is either the cpu-profile fatal exit or the export block applied
to the line-78 configuration and the line-77 trace. -/
theorem setup_fatal_or_export (cmd : CmdLine) (env : Env) (ext : Ext) :
    setup cmd env ext
      = SetupOut.fatalStop (setupTrace2 cmd ext ++ [Event.fatal .cpuprofileCreate])
          (confBeforeExport cmd ext) .cpuprofileCreate
    ∨ setup cmd env ext
      = exportBlock cmd env (confBeforeExport cmd ext) (setupTrace4 cmd ext) := by
  simp only [setup]
  split
  · exact Or.inl rfl
  · exact Or.inr rfl

/-- Every event of the setup trace is a setup event. -/
theorem setup_events (cmd : CmdLine) (env : Env) (ext : Ext) :
    ∀ e ∈ (setup cmd env ext).traceOf, isSetupEvent ext e = true := by
  rcases setup_fatal_or_export cmd env ext with h | h <;> rw [h]
  · intro e he
    simp only [SetupOut.traceOf, List.mem_append, List.mem_cons,
      List.not_mem_nil, or_false] at he
    rcases he with he | he
    · exact List.all_eq_true.mp (setupTrace2_events_all cmd ext) e he
    · rw [he]; rfl
  · exact exportBlock_events
      (List.all_eq_true.mp (setupTrace4_events_all cmd ext))

/-- The whole setup trace starts with the flag-default writes, the
`GOMAXPROCS` call carrying `runtime.NumCPU()`, and `flag.Parse`. -/
theorem setup_trace_cons (cmd : CmdLine) (env : Env) (ext : Ext) :
    ∃ rest, (setup cmd env ext).traceOf
      = Event.confWrite ConfField.flagDefaults :: Event.gomaxprocs ext.numCPU
        :: Event.flagParse :: rest := by
  rcases setup_fatal_or_export cmd env ext with h | h <;> rw [h]
  · refine ⟨(kafkaList (cmd.k.getD "")).map (fun _ => Event.confWrite .kafka)
      ++ ((if cmd.config.getD "" = "" then [] else [Event.confWrite .readConf])
        ++ [Event.fatal .cpuprofileCreate]), ?_⟩
    rw [SetupOut.traceOf, setupTrace2_cons]
    simp only [List.cons_append, List.append_assoc]
  · obtain ⟨r, hr⟩ := exportBlock_trace_prefix cmd env (confBeforeExport cmd ext)
      (setupTrace4 cmd ext)
    refine ⟨(kafkaList (cmd.k.getD "")).map (fun _ => Event.confWrite .kafka)
      ++ ((if cmd.config.getD "" = "" then [] else [Event.confWrite .readConf])
        ++ ((if cmd.cpuprofile.getD "" = "" then [] else [Event.startCPUProfile])
          ++ ((if (confBeforeExport cmd ext).Collect
              then [Event.collectServe 8123] else []) ++ r))), ?_⟩
    rw [hr, setupTrace4, setupTrace2_cons]
    simp only [List.cons_append, List.append_assoc]

/-- What a successful setup guarantees about its components. -/
theorem setup_ok_facts {cmd : CmdLine} {env : Env} {ext : Ext}
    {t : List Event} {c : Conf} {lc : Option Nat} {rl : Bool}
    (h : setup cmd env ext = SetupOut.ok t c lc rl) :
    c.RunDuration = int64Wrap ((cmd.d.getD 10) * 1000000000)
    ∧ rl = cmd.r.getD false
    ∧ lc = (if cmd.j.getD false || cmd.g.getD false || cmd.n.getD false
        then some 1000 else none)
    ∧ c.Arch = (confBeforeExport cmd ext).Arch
    ∧ c.EurekaPoll = (confBeforeExport cmd ext).EurekaPoll
    ∧ (cmd.n.getD false = true →
        c.Neo4jURL = (if env.neo4jurl = "" then "localhost:7474" else env.neo4jurl)) := by
  rcases setup_fatal_or_export cmd env ext with h2 | h2 <;> rw [h2] at h
  · exact absurd h (by simp)
  · exact exportBlock_ok_facts h

/-- When Neo4j export is on, the cpu profile did not abort, and the filter
option is set, setup exits fatally with the filter diagnostic. -/
theorem setup_filter_fatal {cmd : CmdLine} {env : Env} {ext : Ext}
    (hcpu : cmd.cpuprofile.getD "" = "" ∨ ext.cpuprofileCreateOk = true)
    (hn : cmd.n.getD false = true)
    (hf : (confBeforeExport cmd ext).Filter = true) :
    ∃ t c, setup cmd env ext = SetupOut.fatalStop t c FatalMsg.neo4jFilter := by
  have hsplit : setup cmd env ext
      = exportBlock cmd env (confBeforeExport cmd ext) (setupTrace4 cmd ext) := by
    simp only [setup]
    rw [if_neg]
    rintro ⟨h1, h2⟩
    rcases hcpu with h3 | h3
    · exact h1 h3
    · rw [h3] at h2; exact Bool.noConfusion h2
  rw [hsplit]
  exact exportBlock_filter_fatal hn hf

/-- When Neo4j export is on, the cpu profile did not abort, the filter
option is off and the password is unset, setup exits fatally with the
password diagnostic. -/
theorem setup_password_fatal {cmd : CmdLine} {env : Env} {ext : Ext}
    (hcpu : cmd.cpuprofile.getD "" = "" ∨ ext.cpuprofileCreateOk = true)
    (hn : cmd.n.getD false = true)
    (hf : (confBeforeExport cmd ext).Filter = false)
    (hpw : env.neo4jpassword = "") :
    ∃ t c, setup cmd env ext = SetupOut.fatalStop t c FatalMsg.neo4jPassword := by
  have hsplit : setup cmd env ext
      = exportBlock cmd env (confBeforeExport cmd ext) (setupTrace4 cmd ext) := by
    simp only [setup]
    rw [if_neg]
    rintro ⟨h1, h2⟩
    rcases hcpu with h3 | h3
    · exact h1 h3
    · rw [h3] at h2; exact Bool.noConfusion h2
  rw [hsplit]
  exact exportBlock_password_fatal hn hf hpw

/-- When neither the cpu-profile nor the Neo4j checks can fire, setup
completes. -/
theorem setup_completes {cmd : CmdLine} {env : Env} {ext : Ext}
    (hcpu : cmd.cpuprofile.getD "" = "" ∨ ext.cpuprofileCreateOk = true)
    (hneo : cmd.n.getD false = true →
      (confBeforeExport cmd ext).Filter = false ∧ env.neo4jpassword ≠ "") :
    ∃ t c lc rl, setup cmd env ext = SetupOut.ok t c lc rl := by
  have hsplit : setup cmd env ext
      = exportBlock cmd env (confBeforeExport cmd ext) (setupTrace4 cmd ext) := by
    simp only [setup]
    rw [if_neg]
    rintro ⟨h1, h2⟩
    rcases hcpu with h3 | h3
    · exact h1 h3
    · rw [h3] at h2; exact Bool.noConfusion h2
  rw [hsplit]
  exact exportBlock_ok hneo

/-- The trace an `ArchOut` carries. -/
def ArchOut.traceOf : ArchOut → List Event
  | .fatalStop t _ => t
  | .ok t => t

/-- The event kinds the architecture branch can emit. -/
def isRunEvent : Event → Bool
  | .asgardRun _ => true
  | .fsmStart => true
  | .migrationStart => true
  | .readArchCall _ => true
  | .architectureStart => true
  | .fatal _ => true
  | _ => false

/-- The event kinds of the shutdown sequence. -/
def isShutdownEvent : Event → Bool
  | .logComplete => true
  | .closeLogchan => true
  | .eddaWgWait => true
  | .flowShutdown => true
  | _ => false

theorem runEvent_class {e : Event} (h : isRunEvent e = true) :
    isConfWrite e = false ∧ (e == Event.logComplete) = false
    ∧ (e == Event.closeLogchan) = false ∧ isSpawnEdda e = false
    ∧ (∀ v, e ≠ Event.gomaxprocs v) := by
  cases e <;> simp_all [isRunEvent, isConfWrite, isSpawnEdda]

theorem shutdownEvent_class {e : Event} (h : isShutdownEvent e = true) :
    isConfWrite e = false ∧ isArchRun e = false ∧ isStart e = false
    ∧ (∀ v, e ≠ Event.gomaxprocs v) ∧ e ≠ Event.fsmStart
    ∧ e ≠ Event.migrationStart ∧ e ≠ Event.architectureStart
    ∧ (∀ nm, e ≠ Event.readArchCall nm) := by
  cases e <;> simp_all [isShutdownEvent, isConfWrite, isArchRun, isStart]

theorem runArch_events_all (conf : Conf) (rl : Bool) (ext : Ext) :
    ((runArch conf rl ext).traceOf).all isRunEvent = true := by
  simp only [runArch]
  repeat' split
  all_goals simp [ArchOut.traceOf, isRunEvent]

theorem runArch_events (conf : Conf) (rl : Bool) (ext : Ext) :
    ∀ e ∈ (runArch conf rl ext).traceOf, isRunEvent e = true :=
  List.all_eq_true.mp (runArch_events_all conf rl ext)

theorem shutdown_events_all (lc : Option Nat) :
    (shutdownTrace lc).all isShutdownEvent = true := by
  cases lc <;> simp [shutdownTrace, isShutdownEvent]

theorem shutdown_events {lc : Option Nat} :
    ∀ e ∈ shutdownTrace lc, isShutdownEvent e = true :=
  List.all_eq_true.mp (shutdown_events_all lc)

/-- An architecture branch that completed contains an architecture-run
event. -/
theorem runArch_ok_has_arch {conf : Conf} {rl : Bool} {ext : Ext}
    {t : List Event} (h : runArch conf rl ext = ArchOut.ok t) :
    ∃ x ∈ t, isArchRun x = true := by
  simp only [runArch] at h
  repeat' split at h
  all_goals cases h
  all_goals simp [isArchRun]

/- Concrete inputs used by the witnesses below. -/

/-- An empty command line: every flag keeps its registration default. -/
def cmdDefault : CmdLine := {}

/-- An environment with neither Neo4j variable set. -/
def envDefault : Env := { neo4jpassword := "", neo4jurl := "" }

/-- External collaborators behaving benignly: `ReadConf` leaves the
configuration unchanged, `os.Create` succeeds, `ReadArch` recognises every
architecture, and the machine has 4 CPUs. -/
def extDefault : Ext :=
  { readConf := fun c => c, cpuprofileCreateOk := true,
    readArch := fun _ => true, numCPU := 4 }

/-- Like `extDefault` except `architecture.ReadArch` returns nil for every
name. -/
def extNoArch : Ext :=
  { readConf := fun c => c, cpuprofileCreateOk := true,
    readArch := fun _ => false, numCPU := 4 }

/-- A command line with only `-r` (reload). -/
def cmdReload : CmdLine := { r := some true }

/-- A command line with `-n` and `-f` together. -/
def cmdNeoFilter : CmdLine := { n := some true, f := some true }

/-- A command line with only `-n`. -/
def cmdNeo : CmdLine := { n := some true }

/-- An environment with `NEO4JPASSWORD` set and `NEO4JURL` unset. -/
def envNeo : Env := { neo4jpassword := "secret", neo4jurl := "" }

/-- A command line with a two-address `-k` list. -/
def cmdKafka : CmdLine := { k := some "host1:9092,host2:9092" }

/-- C5: the default name-service (Eureka) polling interval, when the `-u`
flag is not supplied on the command line, is exactly one second, the string
`1s`. -/
theorem eureka_poll_default (cmd : CmdLine) (h : cmd.u = none) :
    (confAfterParse cmd).EurekaPoll = "1s" := by
  simp [confAfterParse, h]

theorem eureka_poll_default_witness :
    (confAfterParse cmdDefault).EurekaPoll = "1s" :=
  eureka_poll_default cmdDefault rfl

/-- C9: the Kafka address list is built by splitting the `-k` string on
commas and appending only non-empty entries, so an empty `-k` (the default)
leaves the configuration's Kafka list empty, and no empty-string address is
ever appended for any input. -/
theorem kafka_no_empty_addr (cmd : CmdLine) :
    (cmd.k.getD "" = "" → (confAfterKafka cmd).Kafka = [])
    ∧ (∀ a ∈ (confAfterKafka cmd).Kafka, a ≠ "") := by
  constructor
  · intro h
    have h0 : kafkaList "" = [] := rfl
    simp [confAfterKafka, confAfterParse, h, h0]
  · intro a ha
    simp only [confAfterKafka, confAfterParse, List.nil_append] at ha
    simp only [kafkaList, List.mem_filter] at ha
    obtain ⟨-, hlen⟩ := ha
    intro heq
    rw [heq] at hlen
    simp at hlen

theorem kafka_no_empty_addr_witness :
    (confAfterKafka cmdDefault).Kafka = [] ∧ "" ∉ (confAfterKafka cmdKafka).Kafka :=
  ⟨(kafka_no_empty_addr cmdDefault).1 rfl,
   fun h => (kafka_no_empty_addr cmdKafka).2 "" h rfl⟩

/-- C8: `runtime.GOMAXPROCS` is called with the `cpucount` variable before
`flag.Parse()` runs, so it is always invoked with the registration default
`runtime.NumCPU()`; a `-cpus` value supplied on the command line never
affects the `GOMAXPROCS` setting. -/
theorem gomaxprocs_uses_numcpu (cmd : CmdLine) (env : Env) (ext : Ext) :
    (Spigo.main cmd env ext).trace.take 3
      = [Event.confWrite ConfField.flagDefaults, Event.gomaxprocs ext.numCPU,
          Event.flagParse]
    ∧ (∀ v, Event.gomaxprocs v ∈ (Spigo.main cmd env ext).trace → v = ext.numCPU) := by
  obtain ⟨rest, hst⟩ := setup_trace_cons cmd env ext
  constructor
  · cases hs : setup cmd env ext with
    | fatalStop t c m =>
      rw [hs] at hst
      simp only [SetupOut.traceOf] at hst
      simp [main, hs, hst]
    | ok t c lc rl =>
      rw [hs] at hst
      simp only [SetupOut.traceOf] at hst
      cases hr : runArch c rl ext with
      | fatalStop t2 m => simp [main, hs, hr, hst]
      | ok t2 => simp [main, hs, hr, hst]
  · intro v hv
    have hse := setup_events cmd env ext
    cases hs : setup cmd env ext with
    | fatalStop t c m =>
      rw [hs] at hse
      simp only [SetupOut.traceOf] at hse
      simp only [main, hs] at hv
      have h2 := hse _ hv
      simpa [isSetupEvent] using h2
    | ok t c lc rl =>
      rw [hs] at hse
      simp only [SetupOut.traceOf] at hse
      have hre := runArch_events c rl ext
      cases hr : runArch c rl ext with
      | fatalStop t2 m =>
        rw [hr] at hre
        simp only [ArchOut.traceOf] at hre
        simp only [main, hs, hr, List.mem_append, List.mem_cons,
          List.not_mem_nil, or_false] at hv
        rcases hv with (hv | hv) | hv
        · have h2 := hse _ hv
          simpa [isSetupEvent] using h2
        · cases hv
        · have h2 := hre _ hv
          simp [isRunEvent] at h2
      | ok t2 =>
        rw [hr] at hre
        simp only [ArchOut.traceOf] at hre
        simp only [main, hs, hr, List.mem_append, List.mem_cons,
          List.not_mem_nil, or_false] at hv
        rcases hv with ((hv | hv) | hv) | hv
        · have h2 := hse _ hv
          simpa [isSetupEvent] using h2
        · cases hv
        · have h2 := hre _ hv
          simp [isRunEvent] at h2
        · have h2 := shutdown_events _ hv
          exact absurd rfl ((shutdownEvent_class h2).2.2.2.1 v).symm.elim

theorem gomaxprocs_uses_numcpu_witness :
    Event.gomaxprocs 4 ∈ (Spigo.main cmdDefault envDefault extDefault).trace
    ∧ (4 : Int) = extDefault.numCPU :=
  ⟨by decide,
   (gomaxprocs_uses_numcpu cmdDefault envDefault extDefault).2 4 (by decide)⟩

/-- C1: after the architecture run returns, `main` does not finish before
the recorder path is flushed: the trace ends with the completion log, the
closing of `edda.Logchan` exactly when the channel exists, the wait on
edda's wait group and `flow.Shutdown()`, all after the architecture-run
event. -/
theorem run_ends_with_recorder_flush (cmd : CmdLine) (env : Env) (ext : Ext)
    (h : (Spigo.main cmd env ext).outcome = Outcome.completed) :
    ∃ t, (Spigo.main cmd env ext).trace
        = t ++ (Event.logComplete ::
            ((if (Spigo.main cmd env ext).logchan.isSome
              then [Event.closeLogchan] else [])
              ++ [Event.eddaWgWait, Event.flowShutdown]))
      ∧ ∃ x ∈ t, isArchRun x = true := by
  cases hs : setup cmd env ext with
  | fatalStop t c m => simp [main, hs] at h
  | ok t c lc rl =>
    cases hr : runArch c rl ext with
    | fatalStop t2 m => simp [main, hs, hr] at h
    | ok t2 =>
      refine ⟨(t ++ [Event.spawnEdda (c.Arch ++ ".edda")]) ++ t2, ?_, ?_⟩
      · simp [main, hs, hr, shutdownTrace, List.append_assoc]
      · obtain ⟨x, hx, hax⟩ := runArch_ok_has_arch hr
        exact ⟨x, List.mem_append_right _ hx, hax⟩

theorem run_ends_with_recorder_flush_witness :
    (Spigo.main cmdDefault envDefault extDefault).outcome = Outcome.completed
    ∧ ∃ t, (Spigo.main cmdDefault envDefault extDefault).trace
        = t ++ (Event.logComplete ::
            ((if (Spigo.main cmdDefault envDefault extDefault).logchan.isSome
              then [Event.closeLogchan] else [])
              ++ [Event.eddaWgWait, Event.flowShutdown]))
      ∧ ∃ x ∈ t, isArchRun x = true :=
  ⟨by decide,
   run_ends_with_recorder_flush cmdDefault envDefault extDefault (by decide)⟩

/-- C2: the statement launching `edda.Start` precedes every
architecture-start call, the completion log comes only after the
architecture run returned, and the recorder shutdown broadcast (the channel
close) comes only after the completion log. -/
theorem edda_first_then_arch_then_complete (cmd : CmdLine) (env : Env) (ext : Ext) :
    noEarlier isSpawnEdda isArchRun (Spigo.main cmd env ext).trace
    ∧ noEarlier isArchRun (fun e => e == Event.logComplete)
        (Spigo.main cmd env ext).trace
    ∧ noEarlier (fun e => e == Event.logComplete)
        (fun e => e == Event.closeLogchan) (Spigo.main cmd env ext).trace := by
  cases hs : setup cmd env ext with
  | fatalStop t c m =>
    have hse := setup_events cmd env ext
    rw [hs] at hse
    simp only [SetupOut.traceOf] at hse
    have htrace : (Spigo.main cmd env ext).trace = t := by simp [main, hs]
    rw [htrace]
    refine ⟨noEarlier_of_no_q ?_, noEarlier_of_no_q ?_, noEarlier_of_no_q ?_⟩
    · exact fun e he => (setupEvent_class (hse e he)).2.1
    · exact fun e he => (setupEvent_class (hse e he)).2.2.2.1
    · exact fun e he => (setupEvent_class (hse e he)).2.2.2.2.1
  | ok t c lc rl =>
    have hse := setup_events cmd env ext
    rw [hs] at hse
    simp only [SetupOut.traceOf] at hse
    have hre := runArch_events c rl ext
    have hA1 : ∀ e ∈ t ++ [Event.spawnEdda (c.Arch ++ ".edda")], isArchRun e = false := by
      intro e he
      rcases List.mem_append.mp he with he | he
      · exact (setupEvent_class (hse e he)).2.1
      · rw [List.mem_singleton.mp he]; rfl
    have hw1 : ∃ x ∈ t ++ [Event.spawnEdda (c.Arch ++ ".edda")], isSpawnEdda x = true :=
      ⟨Event.spawnEdda (c.Arch ++ ".edda"),
        List.mem_append_right _ (List.mem_singleton.mpr rfl), rfl⟩
    cases hr : runArch c rl ext with
    | fatalStop t2 m =>
      rw [hr] at hre
      simp only [ArchOut.traceOf] at hre
      have htrace : (Spigo.main cmd env ext).trace
          = (t ++ [Event.spawnEdda (c.Arch ++ ".edda")]) ++ t2 := by
        simp [main, hs, hr]
      rw [htrace]
      have hnolog : ∀ e ∈ (t ++ [Event.spawnEdda (c.Arch ++ ".edda")]) ++ t2,
          (e == Event.logComplete) = false := by
        intro e he
        rcases List.mem_append.mp he with he | he
        · rcases List.mem_append.mp he with he | he
          · exact (setupEvent_class (hse e he)).2.2.2.1
          · rw [List.mem_singleton.mp he]; rfl
        · exact (runEvent_class (hre e he)).2.1
      have hnoclose : ∀ e ∈ (t ++ [Event.spawnEdda (c.Arch ++ ".edda")]) ++ t2,
          (e == Event.closeLogchan) = false := by
        intro e he
        rcases List.mem_append.mp he with he | he
        · rcases List.mem_append.mp he with he | he
          · exact (setupEvent_class (hse e he)).2.2.2.2.1
          · rw [List.mem_singleton.mp he]; rfl
        · exact (runEvent_class (hre e he)).2.2.1
      exact ⟨noEarlier_append_left hA1 hw1, noEarlier_of_no_q hnolog,
        noEarlier_of_no_q hnoclose⟩
    | ok t2 =>
      rw [hr] at hre
      simp only [ArchOut.traceOf] at hre
      have htrace : (Spigo.main cmd env ext).trace
          = ((t ++ [Event.spawnEdda (c.Arch ++ ".edda")]) ++ t2)
              ++ shutdownTrace lc := by
        simp [main, hs, hr]
      refine ⟨?_, ?_, ?_⟩
      · rw [htrace, List.append_assoc]
        exact noEarlier_append_left hA1 hw1
      · rw [htrace]
        have hA2 : ∀ e ∈ (t ++ [Event.spawnEdda (c.Arch ++ ".edda")]) ++ t2,
            (e == Event.logComplete) = false := by
          intro e he
          rcases List.mem_append.mp he with he | he
          · rcases List.mem_append.mp he with he | he
            · exact (setupEvent_class (hse e he)).2.2.2.1
            · rw [List.mem_singleton.mp he]; rfl
          · exact (runEvent_class (hre e he)).2.1
        obtain ⟨x, hx, hax⟩ := runArch_ok_has_arch hr
        exact noEarlier_append_left hA2 ⟨x, List.mem_append_right _ hx, hax⟩
      · have htrace2 : (Spigo.main cmd env ext).trace
            = (((t ++ [Event.spawnEdda (c.Arch ++ ".edda")]) ++ t2)
                ++ [Event.logComplete])
              ++ ((if lc.isSome then [Event.closeLogchan] else [])
                ++ [Event.eddaWgWait, Event.flowShutdown]) := by
          rw [htrace, shutdownTrace]
          simp [List.append_assoc]
        rw [htrace2]
        have hA3 : ∀ e ∈ ((t ++ [Event.spawnEdda (c.Arch ++ ".edda")]) ++ t2)
            ++ [Event.logComplete], (e == Event.closeLogchan) = false := by
          intro e he
          rcases List.mem_append.mp he with he | he
          · rcases List.mem_append.mp he with he | he
            · rcases List.mem_append.mp he with he | he
              · exact (setupEvent_class (hse e he)).2.2.2.2.1
              · rw [List.mem_singleton.mp he]; rfl
            · exact (runEvent_class (hre e he)).2.2.1
          · rw [List.mem_singleton.mp he]; rfl
        exact noEarlier_append_left hA3
          ⟨Event.logComplete,
            List.mem_append_right _ (List.mem_singleton.mpr rfl), rfl⟩

theorem edda_first_then_arch_then_complete_witness :
    ∃ x ∈ [Event.confWrite ConfField.flagDefaults, Event.gomaxprocs 4,
      Event.flagParse, Event.confWrite ConfField.runDuration, Event.spawnHTTP,
      Event.spawnEdda "netflixoss.edda", Event.readArchCall "netflixoss"],
      isSpawnEdda x = true :=
  (edda_first_then_arch_then_complete cmdDefault envDefault extDefault).1
    [Event.confWrite ConfField.flagDefaults, Event.gomaxprocs 4,
      Event.flagParse, Event.confWrite ConfField.runDuration, Event.spawnHTTP,
      Event.spawnEdda "netflixoss.edda", Event.readArchCall "netflixoss"]
    Event.architectureStart
    [Event.logComplete, Event.eddaWgWait, Event.flowShutdown]
    (by decide) rfl

/-- C3: without reload, when the architecture is neither `fsm` nor
`migration` and `architecture.ReadArch` returns nil, `main` exits fatally
with a diagnostic carrying the offending architecture name and
`architecture.Start` is never called. -/
theorem unrecognized_arch_fatal (cmd : CmdLine) (env : Env) (ext : Ext)
    (hok : setupOk cmd env ext = true)
    (hrel : cmd.r.getD false = false)
    (hfsm : (Spigo.main cmd env ext).conf.Arch ≠ "fsm")
    (hmig : (Spigo.main cmd env ext).conf.Arch ≠ "migration")
    (hread : ext.readArch ((Spigo.main cmd env ext).conf.Arch) = false) :
    (Spigo.main cmd env ext).outcome
      = Outcome.fatalExit
          (FatalMsg.archNotRecognized ((Spigo.main cmd env ext).conf.Arch))
    ∧ Event.architectureStart ∉ (Spigo.main cmd env ext).trace := by
  cases hs : setup cmd env ext with
  | fatalStop t c m => simp [setupOk, hs] at hok
  | ok t c lc rl =>
    have hse := setup_events cmd env ext
    rw [hs] at hse
    simp only [SetupOut.traceOf] at hse
    have hc : (Spigo.main cmd env ext).conf = c := by
      cases hr : runArch c rl ext <;> simp [main, hs, hr]
    rw [hc] at hfsm hmig hread ⊢
    have hrl : rl = false := by
      have h2 := (setup_ok_facts hs).2.1
      rw [hrel] at h2
      exact h2
    have hr : runArch c rl ext = ArchOut.fatalStop
        [Event.readArchCall c.Arch, Event.fatal (.archNotRecognized c.Arch)]
        (.archNotRecognized c.Arch) := by
      rw [hrl]
      simp [runArch, hfsm, hmig, hread]
    constructor
    · simp [main, hs, hr]
    · intro hmem
      simp [main, hs, hr] at hmem
      have h2 := hse _ hmem
      simp [isSetupEvent] at h2

theorem unrecognized_arch_fatal_witness :
    (Spigo.main cmdDefault envDefault extNoArch).outcome
      = Outcome.fatalExit
          (FatalMsg.archNotRecognized
            ((Spigo.main cmdDefault envDefault extNoArch).conf.Arch))
    ∧ Event.architectureStart ∉ (Spigo.main cmdDefault envDefault extNoArch).trace :=
  unrecognized_arch_fatal cmdDefault envDefault extNoArch
    (by decide) (by decide) (by decide) (by decide) (by decide)

/-- C4: with the reload flag, the mesh is rebuilt via
`asgard.Run(asgard.Reload(arch), "")` and the build path is never taken:
no `fsm.Start`, `migration.Start`, `architecture.ReadArch` or
`architecture.Start` happens. -/
theorem reload_skips_build_path (cmd : CmdLine) (env : Env) (ext : Ext)
    (hok : setupOk cmd env ext = true)
    (hrel : cmd.r.getD false = true) :
    Event.asgardRun ((Spigo.main cmd env ext).conf.Arch)
        ∈ (Spigo.main cmd env ext).trace
    ∧ Event.fsmStart ∉ (Spigo.main cmd env ext).trace
    ∧ Event.migrationStart ∉ (Spigo.main cmd env ext).trace
    ∧ (∀ nm, Event.readArchCall nm ∉ (Spigo.main cmd env ext).trace)
    ∧ Event.architectureStart ∉ (Spigo.main cmd env ext).trace := by
  cases hs : setup cmd env ext with
  | fatalStop t c m => simp [setupOk, hs] at hok
  | ok t c lc rl =>
    have hse := setup_events cmd env ext
    rw [hs] at hse
    simp only [SetupOut.traceOf] at hse
    have hrl : rl = true := by
      have h2 := (setup_ok_facts hs).2.1
      rw [hrel] at h2
      exact h2
    have hr : runArch c rl ext = ArchOut.ok [Event.asgardRun c.Arch] := by
      rw [hrl]
      simp [runArch]
    have hc : (Spigo.main cmd env ext).conf = c := by
      simp [main, hs, hr]
    have htrace : (Spigo.main cmd env ext).trace
        = ((t ++ [Event.spawnEdda (c.Arch ++ ".edda")]) ++ [Event.asgardRun c.Arch])
          ++ shutdownTrace lc := by
      simp [main, hs, hr]
    rw [hc, htrace]
    refine ⟨?_, ?_, ?_, ?_, ?_⟩
    · exact List.mem_append_left _
        (List.mem_append_right _ (List.mem_singleton.mpr rfl))
    · intro hmem
      rcases List.mem_append.mp hmem with h1 | h1
      · rcases List.mem_append.mp h1 with h2 | h2
        · rcases List.mem_append.mp h2 with h3 | h3
          · have h4 := hse _ h3
            simp [isSetupEvent] at h4
          · simp at h3
        · simp at h2
      · have h4 := shutdown_events _ h1
        simp [isShutdownEvent] at h4
    · intro hmem
      rcases List.mem_append.mp hmem with h1 | h1
      · rcases List.mem_append.mp h1 with h2 | h2
        · rcases List.mem_append.mp h2 with h3 | h3
          · have h4 := hse _ h3
            simp [isSetupEvent] at h4
          · simp at h3
        · simp at h2
      · have h4 := shutdown_events _ h1
        simp [isShutdownEvent] at h4
    · intro nm hmem
      rcases List.mem_append.mp hmem with h1 | h1
      · rcases List.mem_append.mp h1 with h2 | h2
        · rcases List.mem_append.mp h2 with h3 | h3
          · have h4 := hse _ h3
            simp [isSetupEvent] at h4
          · simp at h3
        · simp at h2
      · have h4 := shutdown_events _ h1
        simp [isShutdownEvent] at h4
    · intro hmem
      rcases List.mem_append.mp hmem with h1 | h1
      · rcases List.mem_append.mp h1 with h2 | h2
        · rcases List.mem_append.mp h2 with h3 | h3
          · have h4 := hse _ h3
            simp [isSetupEvent] at h4
          · simp at h3
        · simp at h2
      · have h4 := shutdown_events _ h1
        simp [isShutdownEvent] at h4

theorem reload_skips_build_path_witness :
    Event.asgardRun ((Spigo.main cmdReload envDefault extDefault).conf.Arch)
        ∈ (Spigo.main cmdReload envDefault extDefault).trace
    ∧ Event.readArchCall "netflixoss" ∉ (Spigo.main cmdReload envDefault extDefault).trace :=
  ⟨(reload_skips_build_path cmdReload envDefault extDefault (by decide) (by decide)).1,
   (reload_skips_build_path cmdReload envDefault extDefault
      (by decide) (by decide)).2.2.2.1 "netflixoss"⟩

/-- C6 (counterexample): with `-n -f` the Neo4j export option is enabled but
`main` exits fatally at the filter check before `edda.Logchan` is created,
so the channel is not created even though a graph-export option is on. -/
theorem logchan_iff_export_cex :
    ¬ (((Spigo.main cmdNeoFilter envDefault extDefault).logchan = some 1000)
      ↔ (cmdNeoFilter.j.getD false || cmdNeoFilter.g.getD false
          || cmdNeoFilter.n.getD false) = true) := by decide

/-- C6 (amended): provided setup does not abort fatally, `edda.Logchan` is
created with capacity exactly 1000 if and only if one of the three
graph-export options is enabled; otherwise it stays nil and is never
closed at shutdown. -/
theorem logchan_iff_export (cmd : CmdLine) (env : Env) (ext : Ext)
    (hok : setupOk cmd env ext = true) :
    (((Spigo.main cmd env ext).logchan = some 1000)
      ↔ (cmd.j.getD false || cmd.g.getD false || cmd.n.getD false) = true)
    ∧ ((Spigo.main cmd env ext).logchan = none →
        Event.closeLogchan ∉ (Spigo.main cmd env ext).trace) := by
  cases hs : setup cmd env ext with
  | fatalStop t c m => simp [setupOk, hs] at hok
  | ok t c lc rl =>
    have hse := setup_events cmd env ext
    rw [hs] at hse
    simp only [SetupOut.traceOf] at hse
    have hre := runArch_events c rl ext
    have hlc : lc = (if cmd.j.getD false || cmd.g.getD false || cmd.n.getD false
        then some 1000 else none) := (setup_ok_facts hs).2.2.1
    have hmlc : (Spigo.main cmd env ext).logchan = lc := by
      cases hr : runArch c rl ext <;> simp [main, hs, hr]
    constructor
    · rw [hmlc, hlc]
      by_cases hcond : (cmd.j.getD false || cmd.g.getD false || cmd.n.getD false) = true
      · simp [hcond]
      · simp [hcond]
    · intro hnone hmem
      rw [hmlc] at hnone
      cases hr : runArch c rl ext with
      | fatalStop t2 m =>
        rw [hr] at hre
        simp only [ArchOut.traceOf] at hre
        simp [main, hs, hr] at hmem
        rcases hmem with hmem | hmem
        · have h2 := hse _ hmem
          simp [isSetupEvent] at h2
        · have h2 := hre _ hmem
          simp [isRunEvent] at h2
      | ok t2 =>
        rw [hr] at hre
        simp only [ArchOut.traceOf] at hre
        simp [main, hs, hr, hnone, shutdownTrace] at hmem
        rcases hmem with hmem | hmem
        · have h2 := hse _ hmem
          simp [isSetupEvent] at h2
        · have h2 := hre _ hmem
          simp [isRunEvent] at h2

theorem logchan_iff_export_witness :
    Event.closeLogchan ∉ (Spigo.main cmdDefault envDefault extDefault).trace :=
  (logchan_iff_export cmdDefault envDefault extDefault (by decide)).2 (by decide)

/-- C7: every write to the global configuration happens before the recorder
and the architecture are started (from the first start event onward the
trace holds no configuration write), and the run duration is fixed by the
time `edda.Start` is launched: it holds the `int64` product of the `-d`
flag value and one second in nanoseconds, which is exactly `-d` seconds
whenever that product fits in `int64`. -/
theorem conf_writes_before_start (cmd : CmdLine) (env : Env) (ext : Ext) :
    (((Spigo.main cmd env ext).trace.dropWhile (fun e => !(isStart e))).all
        (fun e => !(isConfWrite e)) = true)
    ∧ (∀ nm, Event.spawnEdda nm ∈ (Spigo.main cmd env ext).trace →
        (Spigo.main cmd env ext).conf.RunDuration
          = int64Wrap ((cmd.d.getD 10) * 1000000000))
    ∧ (∀ nm, Event.spawnEdda nm ∈ (Spigo.main cmd env ext).trace →
        -9223372036 ≤ cmd.d.getD 10 → cmd.d.getD 10 ≤ 9223372036 →
        (Spigo.main cmd env ext).conf.RunDuration
          = (cmd.d.getD 10) * 1000000000) := by
  cases hs : setup cmd env ext with
  | fatalStop t c m =>
    have hse := setup_events cmd env ext
    rw [hs] at hse
    simp only [SetupOut.traceOf] at hse
    have hT : ∀ e ∈ t, (fun e => !(isStart e)) e = true := by
      intro e he
      simp [(setupEvent_class (hse e he)).1]
    refine ⟨?_, ?_, ?_⟩
    · have htrace : (Spigo.main cmd env ext).trace = t := by simp [main, hs]
      rw [htrace, dropWhile_eq_nil_all hT]
      rfl
    · intro nm hmem
      simp only [main, hs] at hmem
      have h2 := hse _ hmem
      simp [isSetupEvent] at h2
    · intro nm hmem
      simp only [main, hs] at hmem
      have h2 := hse _ hmem
      simp [isSetupEvent] at h2
  | ok t c lc rl =>
    have hse := setup_events cmd env ext
    rw [hs] at hse
    simp only [SetupOut.traceOf] at hse
    have hre := runArch_events c rl ext
    have hT : ∀ e ∈ t, (fun e => !(isStart e)) e = true := by
      intro e he
      simp [(setupEvent_class (hse e he)).1]
    refine ⟨?_, ?_, ?_⟩
    · cases hr : runArch c rl ext with
      | fatalStop t2 m =>
        rw [hr] at hre
        simp only [ArchOut.traceOf] at hre
        have hT2 : t2.all (fun e => !(isConfWrite e)) = true := by
          refine List.all_eq_true.mpr ?_
          intro e he
          simp [(runEvent_class (hre e he)).1]
        have htrace : (Spigo.main cmd env ext).trace
            = t ++ ([Event.spawnEdda (c.Arch ++ ".edda")] ++ t2) := by
          simp [main, hs, hr]
        rw [htrace, dropWhile_append_all hT]
        simp only [List.singleton_append, List.dropWhile_cons]
        rw [if_neg (by simp [isStart])]
        rw [List.all_cons]
        have hhead : isConfWrite (Event.spawnEdda (c.Arch ++ ".edda")) = false := rfl
        rw [hhead]
        simp only [Bool.not_false, Bool.true_and]
        exact hT2
      | ok t2 =>
        rw [hr] at hre
        simp only [ArchOut.traceOf] at hre
        have hT2 : (t2 ++ shutdownTrace lc).all (fun e => !(isConfWrite e)) = true := by
          refine List.all_eq_true.mpr ?_
          intro e he
          rcases List.mem_append.mp he with he | he
          · simp [(runEvent_class (hre e he)).1]
          · simp [(shutdownEvent_class (shutdown_events e he)).1]
        have htrace : (Spigo.main cmd env ext).trace
            = t ++ ([Event.spawnEdda (c.Arch ++ ".edda")] ++ (t2 ++ shutdownTrace lc)) := by
          simp [main, hs, hr]
        rw [htrace, dropWhile_append_all hT]
        simp only [List.singleton_append, List.dropWhile_cons]
        rw [if_neg (by simp [isStart])]
        rw [List.all_cons]
        have hhead : isConfWrite (Event.spawnEdda (c.Arch ++ ".edda")) = false := rfl
        rw [hhead]
        simp only [Bool.not_false, Bool.true_and]
        exact hT2
    · intro nm hmem
      have hc : (Spigo.main cmd env ext).conf = c := by
        cases hr : runArch c rl ext <;> simp [main, hs, hr]
      rw [hc]
      exact (setup_ok_facts hs).1
    · intro nm hmem hd1 hd2
      have hc : (Spigo.main cmd env ext).conf = c := by
        cases hr : runArch c rl ext <;> simp [main, hs, hr]
      rw [hc, (setup_ok_facts hs).1]
      have h3 := mul_le_mul_of_nonneg_right hd1
        (by norm_num : (0 : Int) ≤ 1000000000)
      have h4 := mul_le_mul_of_nonneg_right hd2
        (by norm_num : (0 : Int) ≤ 1000000000)
      exact int64Wrap_eq_self (by omega) (by omega)

theorem conf_writes_before_start_witness :
    (Spigo.main cmdDefault envDefault extDefault).conf.RunDuration
      = (cmdDefault.d.getD 10) * 1000000000 :=
  (conf_writes_before_start cmdDefault envDefault extDefault).2.2
    "netflixoss.edda" (by decide) (by decide) (by decide)

/-- C10: with Neo4j export enabled (and the cpu profile not aborting), the
program exits fatally before any start event when the filter option is also
enabled or `NEO4JPASSWORD` is unset; otherwise the Neo4j URL is taken from
`NEO4JURL`, defaulting to `localhost:7474` when that variable is empty. -/
theorem neo4j_startup_checks (cmd : CmdLine) (env : Env) (ext : Ext)
    (hn : cmd.n.getD false = true)
    (hcpu : cmd.cpuprofile.getD "" = "" ∨ ext.cpuprofileCreateOk = true) :
    (((confBeforeExport cmd ext).Filter = true ∨ env.neo4jpassword = "") →
      (∃ msg, (Spigo.main cmd env ext).outcome = Outcome.fatalExit msg)
      ∧ ∀ e ∈ (Spigo.main cmd env ext).trace, isStart e = false)
    ∧ ((confBeforeExport cmd ext).Filter = false → env.neo4jpassword ≠ "" →
      (Spigo.main cmd env ext).conf.Neo4jURL
        = (if env.neo4jurl = "" then "localhost:7474" else env.neo4jurl)) := by
  constructor
  · intro hcase
    have hfatal : ∃ t c msg, setup cmd env ext = SetupOut.fatalStop t c msg := by
      rcases hcase with hf | hpw
      · obtain ⟨t, c, h⟩ := setup_filter_fatal hcpu hn hf
        exact ⟨t, c, _, h⟩
      · by_cases hf : (confBeforeExport cmd ext).Filter = true
        · obtain ⟨t, c, h⟩ := setup_filter_fatal hcpu hn hf
          exact ⟨t, c, _, h⟩
        · have hf2 : (confBeforeExport cmd ext).Filter = false := by
            cases hb : (confBeforeExport cmd ext).Filter
            · rfl
            · exact absurd hb hf
          obtain ⟨t, c, h⟩ := setup_password_fatal hcpu hn hf2 hpw
          exact ⟨t, c, _, h⟩
    obtain ⟨t, c, msg, hs⟩ := hfatal
    have hse := setup_events cmd env ext
    rw [hs] at hse
    simp only [SetupOut.traceOf] at hse
    constructor
    · exact ⟨msg, by simp [main, hs]⟩
    · intro e he
      simp only [main, hs] at he
      exact (setupEvent_class (hse _ he)).1
  · intro hf hpw
    obtain ⟨t, c, lc, rl, hs⟩ := setup_completes hcpu (fun _ => ⟨hf, hpw⟩)
    have hc : (Spigo.main cmd env ext).conf = c := by
      cases hr : runArch c rl ext <;> simp [main, hs, hr]
    rw [hc]
    exact (setup_ok_facts hs).2.2.2.2.2 hn

theorem neo4j_startup_checks_witness :
    (Spigo.main cmdNeo envNeo extDefault).conf.Neo4jURL
      = (if envNeo.neo4jurl = "" then "localhost:7474" else envNeo.neo4jurl) :=
  (neo4j_startup_checks cmdNeo envNeo extDefault (by decide)
    (Or.inl (by decide))).2 (by decide) (by decide)

end Spigo
